import Mathlib

/-!
# Verification of the provisionr template-provisioning service

Shallow embedding of the core of `provisionr-rs`: the data model
(`src/storage/models.rs`), the in-memory template store
(`src/storage/dashmap_store.rs`), the durable rendered catalogue
(`src/storage/sqlite_store.rs`), the commander helpers
(`src/commands/commander.rs`), the value generators
(`src/generators/alphanumeric.rs`, `src/generators/passphrase.rs`) and the
render pipeline of the command dispatcher (`src/threads/handler.rs`).

Conventions of the embedding:
* Rust `HashMap<String, String>` becomes an association list
  `List (String × String)` whose `insert` overwrites the previous binding
  for a key; only lookups are observable, so list order is irrelevant for
  distinct keys.
* The template engine (external `minijinja` crate, declared opaque by the
  specification) is a parameter
  `engine : String → List (String × String) → Except String String`.
* Randomness of the generators is a parameter: an `rng : Nat → Nat` stream
  of draws (one natural number per sample), applied exactly where the Rust
  code samples its RNG.
* SQLite I/O failures are fault-injection booleans (`getFault`,
  `storeFault`); with both `false` the model is the store running normally.
-/

namespace Provisionr

/-! ## Data model (src/storage/models.rs) -/

/-- `GeneratorType` from `src/storage/models.rs`. -/
inductive GeneratorType where
  | alphanumeric (length : Nat)
  | passphrase (word_count : Nat)
deriving DecidableEq, Repr

/-- `HashingAlgorithm` from `src/storage/models.rs` (default `None`). -/
inductive HashingAlgorithm where
  | none
  | sha512
  | yescrypt
deriving DecidableEq, Repr

/-- `DynamicFieldConfig` from `src/storage/models.rs`: a field whose value
is generated at render time, with an optional per-field hashing algorithm
(serde default `none`). -/
structure DynamicFieldConfig where
  field_name : String
  generator_type : GeneratorType
  hashing_algorithm : HashingAlgorithm := .none
deriving DecidableEq, Repr

/-- `TemplateData` from `src/storage/models.rs`, extended with the
template-level `hashing_algorithm` field that `src/threads/handler.rs` and
`src/storage/dashmap_store.rs` read and write on this record. -/
structure TemplateData where
  template_content : String := ""
  id_field : String := "mac_address"
  values_yaml : Option String := Option.none
  dynamic_fields : List DynamicFieldConfig := []
  hashing_algorithm : HashingAlgorithm := .none
deriving DecidableEq, Repr

/-- `TemplateConfig` from `src/storage/models.rs`, with the
`hashing_algorithm` member used by `dashmap_store.rs::set_config`. -/
structure TemplateConfig where
  id_field : String := "mac_address"
  dynamic_fields : List DynamicFieldConfig := []
  hashing_algorithm : HashingAlgorithm := .none
deriving DecidableEq, Repr

/-- `RenderedTemplate` from `src/storage/models.rs`: one row of the
`rendered_templates` table. -/
structure RenderedTemplate where
  id : Int
  template_name : String
  id_field_value : String
  rendered_content : String
  generated_values : String
  created_at : String
deriving DecidableEq, Repr

/-- `RenderedTemplateSummary` from `src/storage/models.rs`. -/
structure RenderedTemplateSummary where
  id_field_value : String
  created_at : String
deriving DecidableEq, Repr

/-- `ProvisionrError` from `src/error.rs`. -/
inductive ProvisionrError where
  | TemplateValidation (msg : String)
  | YamlParse (msg : String)
  | TemplateRender (msg : String)
  | Database (msg : String)
  | TemplateNotFound (name : String)
  | TemplateEmpty (name : String)
  | MissingField (field : String)
deriving DecidableEq, Repr

/-! ## Association-list model of `HashMap<String, String>` -/

/-- Lookup in an association-list map (`HashMap::get`). -/
def lookupKV : List (String × String) → String → Option String
  | [], _ => Option.none
  | p :: m, k => if p.1 = k then some p.2 else lookupKV m k

/-- Insert with overwrite (`HashMap::insert`): any previous binding for the
key is removed and the new one appended. -/
def insertKV : List (String × String) → String → String →
    List (String × String)
  | [], k, v => [(k, v)]
  | p :: m, k, v => if p.1 = k then insertKV m k v else p :: insertKV m k v

/-- Insert every binding of `xs` into `m`, in order (`for (k, v) in &xs
{ m.insert(k, v) }`). Later entries of `xs` win. -/
def insertAll (m xs : List (String × String)) : List (String × String) :=
  xs.foldl (fun acc p => insertKV acc p.1 p.2) m

/-- The binding of `k` written last by inserting `xs` in order, if any. -/
def lookupLast : List (String × String) → String → Option String
  | [], _ => Option.none
  | p :: xs, k =>
      match lookupLast xs k with
      | some v => some v
      | Option.none => if p.1 = k then some p.2 else Option.none

theorem lookupKV_insertKV_self (m : List (String × String)) (k v : String) :
    lookupKV (insertKV m k v) k = some v := by
  induction m with
  | nil => simp [insertKV, lookupKV]
  | cons p m ih =>
    by_cases h : p.1 = k
    · simpa [insertKV, h] using ih
    · simpa [insertKV, lookupKV, h] using ih

theorem lookupKV_insertKV_ne (m : List (String × String)) (k v k' : String)
    (h : k' ≠ k) : lookupKV (insertKV m k v) k' = lookupKV m k' := by
  have hkk' : ¬ k = k' := fun hh => h hh.symm
  induction m with
  | nil => simp [insertKV, lookupKV, hkk']
  | cons p m ih =>
    by_cases hp : p.1 = k
    · have hpk' : ¬ p.1 = k' := by rw [hp]; exact hkk'
      simpa [insertKV, lookupKV, hp, hpk', hkk', h] using ih
    · by_cases hk' : p.1 = k'
      · simp [insertKV, lookupKV, hp, hk', hkk', h]
      · simpa [insertKV, lookupKV, hp, hk', hkk', h] using ih

/-- Master lemma: after inserting all of `xs`, a key resolves to the last
binding in `xs` if `xs` binds it, and to its old binding otherwise. -/
theorem lookupKV_insertAll (m xs : List (String × String)) (k : String) :
    lookupKV (insertAll m xs) k =
      match lookupLast xs k with
      | some v => some v
      | Option.none => lookupKV m k := by
  induction xs generalizing m with
  | nil => simp [insertAll, lookupLast]
  | cons p xs ih =>
    have hstep : insertAll m (p :: xs) = insertAll (insertKV m p.1 p.2) xs := rfl
    rw [hstep, ih]
    cases hlast : lookupLast xs k with
    | some v => simp [lookupLast, hlast]
    | none =>
      by_cases hk : p.1 = k
      · simp [lookupLast, hlast, hk, hk ▸ lookupKV_insertKV_self m p.1 p.2]
      · have hne : k ≠ p.1 := fun hh => hk hh.symm
        simp [lookupLast, hlast, hk, lookupKV_insertKV_ne m p.1 p.2 k hne]

theorem lookupLast_eq_none_of_not_mem (xs : List (String × String))
    (k : String) (h : k ∉ xs.map Prod.fst) : lookupLast xs k = Option.none := by
  induction xs with
  | nil => rfl
  | cons p xs ih =>
    have hp : ¬ p.1 = k := fun hh => h (by simp [hh])
    have hxs : k ∉ xs.map Prod.fst := fun hh => h (by simp [hh])
    simp [lookupLast, ih hxs, hp]

/-! ## Template store (src/storage/dashmap_store.rs)

The `DashMap<String, TemplateData>` is modelled as the map
`String → Option TemplateData`; each trait method of `TemplateStore` is a
function from store to store. -/

/-- The store type: template name to record. -/
def TStore := String → Option TemplateData

/-- Point update of the map. -/
def TStore.put (ts : TStore) (name : String) (d : TemplateData) : TStore :=
  fun m => if m = name then some d else ts m

/-- `set_template_content`: upsert, creating a default record if absent,
then overwriting `template_content` only. -/
def TStore.set_template_content (ts : TStore) (name content : String) :
    TStore :=
  let entry := (ts name).getD {}
  ts.put name { entry with template_content := content }

/-- `set_values`: fails when the record is absent, otherwise replaces
`values_yaml`. -/
def TStore.set_values (ts : TStore) (name yaml_str : String) :
    Except String TStore :=
  match ts name with
  | some entry => .ok (ts.put name { entry with values_yaml := some yaml_str })
  | Option.none => .error ("Template not found: " ++ name)

/-- `set_config`: fails when the record is absent, otherwise replaces
`id_field`, `dynamic_fields` and `hashing_algorithm`. -/
def TStore.set_config (ts : TStore) (name : String) (config : TemplateConfig) :
    Except String TStore :=
  match ts name with
  | some entry =>
      .ok (ts.put name
        { entry with
          id_field := config.id_field
          dynamic_fields := config.dynamic_fields
          hashing_algorithm := config.hashing_algorithm })
  | Option.none => .error ("Template not found: " ++ name)

/-- `get_config`. -/
def TStore.get_config (ts : TStore) (name : String) : Option TemplateConfig :=
  (ts name).map (fun d =>
    { id_field := d.id_field
      dynamic_fields := d.dynamic_fields
      hashing_algorithm := d.hashing_algorithm })

/-- `delete`: idempotent removal. -/
def TStore.delete (ts : TStore) (name : String) : TStore :=
  fun m => if m = name then Option.none else ts m

/-- The empty store. -/
def TStore.empty : TStore := fun _ => Option.none

/-! ## Rendered catalogue (src/storage/sqlite_store.rs)

The `rendered_templates` table is the list of its rows. `getFault` and
`storeFault` inject the `rusqlite` I/O errors that the Rust code maps into
`ProvisionrError::Database`; with the flags `false` the model is the
successful SQL path. -/

/-- The catalogue: rows of `rendered_templates`. -/
abbrev Catalogue := List RenderedTemplate

/-- Does a row have the given `(template_name, id_field_value)` key? -/
def rowMatches (r : RenderedTemplate) (name idv : String) : Bool :=
  r.template_name = name && r.id_field_value = idv

/-- `AUTOINCREMENT` model for the `id` column. -/
def nextId (cat : Catalogue) : Int :=
  (cat.map RenderedTemplate.id).foldl max 0 + 1

/-- `get_rendered`: the `SELECT ... WHERE template_name = ? AND
id_field_value = ?` returning `Ok(None)` on `QueryReturnedNoRows`. -/
def get_rendered (cat : Catalogue) (fault : Bool) (name idv : String) :
    Except String (Option RenderedTemplate) :=
  if fault then .error "Database query failed"
  else .ok (cat.find? (fun r => rowMatches r name idv))

/-- `store_rendered`: `INSERT OR REPLACE` on the
`UNIQUE(template_name, id_field_value)` constraint; `created_at` is set to
the current time `now` on every upsert. Returns the new rowid. -/
def store_rendered (cat : Catalogue) (fault : Bool)
    (name idv rendered generated now : String) :
    Except String (Int × Catalogue) :=
  if fault then .error "Failed to insert rendered template"
  else
    let row : RenderedTemplate :=
      { id := nextId cat
        template_name := name
        id_field_value := idv
        rendered_content := rendered
        generated_values := generated
        created_at := now }
    .ok (row.id, cat.filter (fun r => !(rowMatches r name idv)) ++ [row])

/-- Insertion sort descending by `created_at` (string comparison), the
`ORDER BY created_at DESC` of `list_rendered`. -/
def sortByCreatedDesc (l : List RenderedTemplateSummary) :
    List RenderedTemplateSummary :=
  l.foldr (fun s acc => insertDesc s acc) []
where
  insertDesc (s : RenderedTemplateSummary) :
      List RenderedTemplateSummary → List RenderedTemplateSummary
    | [] => [s]
    | t :: rest =>
        if t.created_at ≤ s.created_at then s :: t :: rest
        else t :: insertDesc s rest

/-- `list_rendered`: project the rows of one template, newest first. -/
def list_rendered (cat : Catalogue) (name : String) :
    List RenderedTemplateSummary :=
  sortByCreatedDesc
    ((cat.filter (fun r => r.template_name = name)).map
      (fun r => { id_field_value := r.id_field_value
                  created_at := r.created_at }))

/-! ## YAML (src/commands/commander.rs and the `yaml_rust2` codec)

`Yaml` mirrors the `yaml_rust2::Yaml` variants that
`ConcreteCommander::yaml_to_map` distinguishes. The loader and emitter
themselves live in the external `yaml_rust2` crate; they are modelled from
the spec on the fragment the service exchanges: flat mappings with scalar
entries, emitted as one `key: value` line per entry with double-quoted
string values (spec 4.E: `map_to_yaml(m) → string` *emits a mapping of
quoted strings*). -/

/-- The `yaml_rust2::Yaml` value tree (the variants the commander uses).
`real` keeps the raw lexical form, as `yaml_rust2` does. -/
inductive Yaml where
  | str (s : String)
  | int (n : Int)
  | real (s : String)
  | bool (b : Bool)
  | hash (entries : List (Yaml × Yaml))
  | arr (elems : List Yaml)
  | null

/-- The loop body of `yaml_to_map` (`src/commands/commander.rs`): a
top-level entry with a string key and a scalar value is stringified
(`i.to_string()`, raw real, `b.to_string()`) and inserted; everything else
is dropped silently. -/
def yamlEntryStep (map : List (String × String)) (e : Yaml × Yaml) :
    List (String × String) :=
  match e.1 with
  | .str k =>
      match e.2 with
      | .str s => insertKV map k s
      | .int i => insertKV map k (toString i)
      | .real r => insertKV map k r
      | .bool b => insertKV map k (if b then "true" else "false")
      | _ => map
  | _ => map

/-- `yaml_to_map` from `src/commands/commander.rs`: fold the hash entries
through `yamlEntryStep`; any non-mapping document yields the empty map. -/
def yaml_to_map (y : Yaml) : List (String × String) :=
  match y with
  | .hash entries => entries.foldl yamlEntryStep []
  | _ => []

/-- The canonical lexical form of a scalar `Yaml` value, as `yaml_to_map`
stringifies it; `none` on non-scalars. -/
def scalarString : Yaml → Option String
  | .str s => some s
  | .int i => some (toString i)
  | .real r => some r
  | .bool b => some (if b then "true" else "false")
  | _ => Option.none

/-- Escape of one character inside a double-quoted YAML scalar.
Modelled from the spec: the emitter produces quoted strings, so the
characters that would break the quoting (`\`, `"`) or the line structure
(newline) are escaped. -/
def escapeChar (c : Char) : List Char :=
  if c = '\\' then ['\\', '\\']
  else if c = '\"' then ['\\', '\"']
  else if c = '\n' then ['\\', 'n']
  else [c]

/-- Escape a whole scalar body. -/
def escapeChars (v : List Char) : List Char :=
  v.foldr (fun c acc => escapeChar c ++ acc) []

/-- One emitted mapping line: `key: "escaped-value"`. -/
def emitLine (k v : List Char) : List Char :=
  k ++ (": ").data ++ '\"' :: escapeChars v ++ ['\"']

/-- Modelled from the spec: the `yaml_rust2::YamlEmitter` on the flat
string mappings the service produces — a `---` document marker, then one
line per entry with the value double-quoted, `{}` for the empty mapping. -/
def emitFlatHash (entries : List (List Char × List Char)) : List Char :=
  match entries with
  | [] => ("---\n").data ++ ("\x7b\x7d").data
  | _ =>
      ("---\n").data ++
        List.intercalate ['\n'] (entries.map (fun p => emitLine p.1 p.2))

/-- `map_to_yaml_string` from `src/commands/commander.rs`: build a
`Yaml::Hash` of the map entries (string keys, string values) and dump it
with the emitter. The emitter error path exists in the source
(`YAML emit error`) but the modelled emitter is total, so it is never
taken. -/
def map_to_yaml_string (m : List (String × String)) :
    Except ProvisionrError String :=
  .ok (String.mk (emitFlatHash (m.map (fun p => (p.1.data, p.2.data)))))

/-- Decode one escape sequence of a double-quoted scalar. -/
def decodeEsc (c : Char) : Except String Char :=
  if c = '\\' then .ok '\\'
  else if c = '\"' then .ok '\"'
  else if c = 'n' then .ok '\n'
  else .error "invalid escape"

/-- Consume the body of a double-quoted scalar up to and including the
closing quote, rejecting trailing characters. -/
def unescQuoted : List Char → Except String (List Char)
  | [] => .error "unterminated quoted scalar"
  | c :: rest =>
      if c = '\"' then
        if rest = [] then .ok [] else .error "trailing characters"
      else if c = '\\' then
        match rest with
        | [] => .error "dangling escape"
        | d :: rest2 =>
            match decodeEsc d with
            | .error e => .error e
            | .ok e =>
                match unescQuoted rest2 with
                | .error e2 => .error e2
                | .ok tail => .ok (e :: tail)
      else
        match unescQuoted rest with
        | .error e2 => .error e2
        | .ok tail => .ok (c :: tail)

/-- Modelled from the spec: parse one scalar. A leading quote starts a
double-quoted string; otherwise `true`/`false` read back as booleans and
anything else as a plain string. -/
def parseScalar (vs : List Char) : Except String Yaml :=
  match vs with
  | '\"' :: inner =>
      match unescQuoted inner with
      | .error e => .error e
      | .ok body => .ok (.str (String.mk body))
  | _ =>
      if vs = ("true").data then .ok (.bool true)
      else if vs = ("false").data then .ok (.bool false)
      else .ok (.str (String.mk vs))

/-- Modelled from the spec: parse one `key: value` mapping line. -/
def parseLine (cs : List Char) : Except String (Yaml × Yaml) :=
  match cs.dropWhile (fun c => c ≠ ':') with
  | ':' :: ' ' :: vs =>
      match parseScalar vs with
      | .error e => .error e
      | .ok v => .ok (.str (String.mk (cs.takeWhile (fun c => c ≠ ':'))), v)
  | _ => .error "invalid mapping line"

/-- Parse each mapping line, propagating the first failure. -/
def parseLines : List (List Char) → Except String (List (Yaml × Yaml))
  | [] => .ok []
  | l :: rest =>
      match parseLine l with
      | .error e => .error e
      | .ok kv =>
          match parseLines rest with
          | .error e => .error e
          | .ok kvs => .ok (kv :: kvs)

/-- Modelled from the spec: the `yaml_rust2::YamlLoader` on the flat
mapping documents the service exchanges — an optional `---` marker, then
one `key: value` line per entry ( `{}` is the empty mapping). -/
def loadFlatYaml (cs : List Char) : Except String Yaml :=
  let body := if ("---\n").data.isPrefixOf cs then cs.drop 4 else cs
  if body = [] then .error "empty document"
  else if body = ("\x7b\x7d").data then .ok (.hash [])
  else
    match parseLines (body.splitOn '\n') with
    | .error e => .error e
    | .ok entries => .ok (.hash entries)

/-- `parse_yaml` from `src/commands/commander.rs`: load the string and take
the first document, failing on an empty document list. -/
def parse_yaml (s : String) : Except ProvisionrError Yaml :=
  (loadFlatYaml s.data).mapError ProvisionrError.YamlParse

/-! ## Value generators (src/generators) -/

/-- The `rand::distr::Alphanumeric` character set: `A-Z`, `a-z`, `0-9`. -/
def alphanumericCharset : List Char :=
  ("ABCDEFGHIJKLMNOPQRSTUVWXYZabcdefghijklmnopqrstuvwxyz0123456789").data

/-- `AlphanumericGenerator::generate` from
`src/generators/alphanumeric.rs`: take `length` uniform samples from the
alphanumeric character set; `rng i` is the i-th draw of the generator's
RNG. -/
def alphanumericGenerate (length : Nat) (rng : Nat → Nat) : String :=
  String.mk
    ((List.range length).map
      (fun i => alphanumericCharset.getD (rng i % 62) 'A'))

/-- The wordlist filter of `PassphraseGenerator::new`
(src/generators/passphrase.rs): keep the non-empty lines that do not
contain the separator `-`. -/
def filterWordlist (lines : List (List Char)) : List (List Char) :=
  lines.filter (fun l => !l.isEmpty && !l.contains '-')

/-- `words.choose(&mut rng).unwrap_or(&"word")`: a uniform draw from the
filtered wordlist, falling back to `"word"` when the list is empty. -/
def chooseWord (words : List (List Char)) (r : Nat) : List Char :=
  match words with
  | [] => ("word").data
  | _ => words.getD (r % words.length) []

/-- `PassphraseGenerator::generate` from `src/generators/passphrase.rs`:
`word_count` draws from the (already filtered) wordlist, joined with
`-`. -/
def passphraseGenerate (word_count : Nat) (words : List (List Char))
    (rng : Nat → Nat) : String :=
  String.mk
    (List.intercalate ['-']
      ((List.range word_count).map (fun i => chooseWord words (rng i))))

/-- Modelled from the spec: the output of
`create_hasher(alg).hash(password)` (src/generators/hasher.rs). The
`sha_crypt` and `yescrypt` crates are external; the spec fixes their
contract — `None` returns the plaintext unchanged, `Sha512` a
`$6$`-prefixed crypt string, `Yescrypt` a `$y$`-prefixed crypt string —
and `payload` abstracts the salted remainder of the crypt string. -/
def hasherOutput (alg : HashingAlgorithm) (payload : String)
    (password : String) : String :=
  match alg with
  | .none => password
  | .sha512 => "$6$" ++ payload
  | .yescrypt => "$y$" ++ payload

/-! ## Commander (src/commands/commander.rs) -/

/-- The opaque template engine of spec 4.A (the external `minijinja` crate
behind the `TemplateEngine` trait of src/templating/engine.rs). -/
structure TemplateEngine where
  validate : String → Except String Unit
  render : String → List (String × String) → Except String String

/-- `ConcreteCommander::generate_dynamic_values` from
`src/commands/commander.rs` (lines 50-60): for each field construct the
generator selected by `generator_type` and record its raw output under
`field_name`. `rngs i` is the RNG stream of the i-th field's generator and
`wordlistLines` the embedded wordlist file. Note that this function never
consults any hashing algorithm: the generated value is inserted as-is. -/
def generate_dynamic_values (fields : List DynamicFieldConfig)
    (wordlistLines : List (List Char)) (rngs : Nat → Nat → Nat) :
    List (String × String) :=
  (fields.enum).foldl
    (fun result fi =>
      let value :=
        match fi.2.generator_type with
        | .alphanumeric len => alphanumericGenerate len (rngs fi.1)
        | .passphrase count =>
            passphraseGenerate count (filterWordlist wordlistLines) (rngs fi.1)
      insertKV result fi.2.field_name value)
    []

/-! ## Render pipeline (src/threads/handler.rs)

`handle_render` threads the catalogue state explicitly and abstracts the
two external effects: `gen` is the dispatcher's call
`commander.generate_dynamic_values(&dynamic_fields, &hashing_algorithm)`
(its output is random), and `engine` the minijinja render. -/

/-- The binding-map composition of `handle_render` (lines 176-194): start
from the `values_yaml` defaults, insert every query parameter, then insert
every generated value. -/
def composeValues (base query generated : List (String × String)) :
    List (String × String) :=
  insertAll (insertAll base query) generated

/-- The generation path of `handle_render` (src/threads/handler.rs lines
176-204), reached when the catalogue read did not produce a hit: compose
the binding map, generate the dynamic values, render and store. -/
def renderGen (cat : Catalogue)
    (gen : List DynamicFieldConfig → HashingAlgorithm →
      List (String × String))
    (engine : TemplateEngine) (storeFault : Bool) (now : String)
    (name : String) (template_data : TemplateData) (id_value : String)
    (query values0 : List (String × String)) :
    Except ProvisionrError String × Catalogue :=
  let generated :=
    gen template_data.dynamic_fields template_data.hashing_algorithm
  match map_to_yaml_string generated with
  | .error e => (.error e, cat)
  | .ok generated_yaml =>
    let values2 := composeValues values0 query generated
    match engine.render template_data.template_content values2 with
    | .error e => (.error (.TemplateRender e), cat)
    | .ok rendered =>
      match store_rendered cat storeFault name id_value rendered
          generated_yaml now with
      | .error e => (.error (.Database e), cat)
      | .ok (_, cat2) => (.ok rendered, cat2)

/-- The `values_yaml` default bindings of the record, as parsed by the
first step of the generation path. -/
def baseValues (template_data : TemplateData) :
    Except ProvisionrError (List (String × String)) :=
  match template_data.values_yaml with
  | some yaml_str =>
      match parse_yaml yaml_str with
      | .error e => .error e
      | .ok yaml => .ok (yaml_to_map yaml)
  | Option.none => .ok []

def renderMiss (cat : Catalogue)
    (gen : List DynamicFieldConfig → HashingAlgorithm →
      List (String × String))
    (engine : TemplateEngine) (storeFault : Bool) (now : String)
    (name : String) (template_data : TemplateData) (id_value : String)
    (query : List (String × String)) :
    Except ProvisionrError String × Catalogue :=
  match baseValues template_data with
  | .error e => (.error e, cat)
  | .ok values0 =>
      renderGen cat gen engine storeFault now name template_data id_value
        query values0

/-- `ConcreteHandler::handle_render` from `src/threads/handler.rs`
(lines 153-205). Returns the reply and the catalogue after the command. -/
def handle_render (ts : TStore) (cat : Catalogue)
    (gen : List DynamicFieldConfig → HashingAlgorithm →
      List (String × String))
    (engine : TemplateEngine) (getFault storeFault : Bool) (now : String)
    (name : String) (query : List (String × String)) :
    Except ProvisionrError String × Catalogue :=
  match ts name with
  | Option.none => (.error (.TemplateNotFound name), cat)
  | some template_data =>
    if template_data.template_content = "" then
      (.error (.TemplateEmpty name), cat)
    else
      match lookupKV query template_data.id_field with
      | Option.none => (.error (.MissingField template_data.id_field), cat)
      | some id_value =>
        match get_rendered cat getFault name id_value with
        | .ok (some cached) => (.ok cached.rendered_content, cat)
        | _ =>
          -- `if let Ok(Some(cached))`: both a clean miss and a database
          -- error fall through to the generation path.
          renderMiss cat gen engine storeFault now name template_data
            id_value query

/-! ### Branch lemmas for the render pipeline -/

theorem handle_render_not_found (ts : TStore) (cat : Catalogue) (gen)
    (engine : TemplateEngine) (gf sf : Bool) (now name : String) (query)
    (h : ts name = Option.none) :
    handle_render ts cat gen engine gf sf now name query =
      (.error (.TemplateNotFound name), cat) := by
  simp [handle_render, h]

theorem handle_render_empty (ts : TStore) (cat : Catalogue) (gen)
    (engine : TemplateEngine) (gf sf : Bool) (now name : String) (query)
    (td : TemplateData) (h : ts name = some td)
    (hc : td.template_content = "") :
    handle_render ts cat gen engine gf sf now name query =
      (.error (.TemplateEmpty name), cat) := by
  simp [handle_render, h, hc]

theorem handle_render_missing_field (ts : TStore) (cat : Catalogue) (gen)
    (engine : TemplateEngine) (gf sf : Bool) (now name : String) (query)
    (td : TemplateData) (h : ts name = some td)
    (hc : td.template_content ≠ "")
    (hq : lookupKV query td.id_field = Option.none) :
    handle_render ts cat gen engine gf sf now name query =
      (.error (.MissingField td.id_field), cat) := by
  simp [handle_render, h, hc, hq]

theorem handle_render_hit (ts : TStore) (cat : Catalogue) (gen)
    (engine : TemplateEngine) (sf : Bool) (now name idv : String) (query)
    (td : TemplateData) (row : RenderedTemplate) (h : ts name = some td)
    (hc : td.template_content ≠ "")
    (hq : lookupKV query td.id_field = some idv)
    (hrow : cat.find? (fun r => rowMatches r name idv) = some row) :
    handle_render ts cat gen engine false sf now name query =
      (.ok row.rendered_content, cat) := by
  simp [handle_render, h, hc, hq, get_rendered, hrow]

theorem handle_render_miss (ts : TStore) (cat : Catalogue) (gen)
    (engine : TemplateEngine) (sf : Bool) (now name idv : String) (query)
    (td : TemplateData) (h : ts name = some td)
    (hc : td.template_content ≠ "")
    (hq : lookupKV query td.id_field = some idv)
    (hrow : cat.find? (fun r => rowMatches r name idv) = Option.none) :
    handle_render ts cat gen engine false sf now name query =
      renderMiss cat gen engine sf now name td idv query := by
  simp [handle_render, h, hc, hq, get_rendered, hrow]

theorem handle_render_get_fault (ts : TStore) (cat : Catalogue) (gen)
    (engine : TemplateEngine) (sf : Bool) (now name idv : String) (query)
    (td : TemplateData) (h : ts name = some td)
    (hc : td.template_content ≠ "")
    (hq : lookupKV query td.id_field = some idv) :
    handle_render ts cat gen engine true sf now name query =
      renderMiss cat gen engine sf now name td idv query := by
  simp [handle_render, h, hc, hq, get_rendered]

/-- `parse_yaml` only fails with a `YamlParse` error. -/
theorem parse_yaml_error_shape (s : String) (m : ProvisionrError)
    (h : parse_yaml s = .error m) : ∃ msg, m = .YamlParse msg := by
  unfold parse_yaml at h
  cases hl : loadFlatYaml s.data with
  | error x =>
    rw [hl] at h
    simp [Except.mapError] at h
    exact ⟨x, h.symm⟩
  | ok y =>
    rw [hl] at h
    simp [Except.mapError] at h

/-- `baseValues` only fails with a `YamlParse` error. -/
theorem baseValues_error_shape (td : TemplateData) (e : ProvisionrError)
    (h : baseValues td = .error e) : ∃ msg, e = .YamlParse msg := by
  unfold baseValues at h
  cases hy : td.values_yaml with
  | none =>
    simp only [hy] at h
    exact Except.noConfusion h
  | some ys =>
    simp only [hy] at h
    cases hp : parse_yaml ys with
    | error m =>
      simp only [hp] at h
      exact Except.error.inj h ▸ parse_yaml_error_shape ys m hp
    | ok yaml =>
      simp only [hp] at h
      exact Except.noConfusion h

/-- Every error of the post-parse generation path leaves the catalogue
unchanged and is a render or database error. -/
theorem renderGen_error (cat : Catalogue) (gen) (engine : TemplateEngine)
    (sf : Bool) (now name : String) (td : TemplateData) (idv : String)
    (query values0) (e : ProvisionrError)
    (h : (renderGen cat gen engine sf now name td idv query values0).1 =
      .error e) :
    (renderGen cat gen engine sf now name td idv query values0).2 = cat ∧
      ((∃ m, e = .TemplateRender m) ∨ (∃ m, e = .Database m)) := by
  unfold renderGen at h ⊢
  simp only [map_to_yaml_string] at h ⊢
  cases hr : engine.render td.template_content
      (composeValues values0 query
        (gen td.dynamic_fields td.hashing_algorithm)) with
  | error m =>
    simp only [hr] at h
    refine ⟨by simp [hr], Or.inl ⟨m, (Except.error.inj h).symm⟩⟩
  | ok rendered =>
    cases sf with
    | true =>
      simp only [hr, store_rendered, if_true] at h
      refine ⟨by simp [hr, store_rendered],
        Or.inr ⟨_, (Except.error.inj h).symm⟩⟩
    | false =>
      simp [hr, store_rendered] at h

/-- Every error of the whole generation path leaves the catalogue
unchanged and is a YAML-parse, render or database error (never a
not-found, empty or missing-field error). -/
theorem renderMiss_error (cat : Catalogue) (gen) (engine : TemplateEngine)
    (sf : Bool) (now name : String) (td : TemplateData) (idv : String)
    (query) (e : ProvisionrError)
    (h : (renderMiss cat gen engine sf now name td idv query).1 = .error e) :
    (renderMiss cat gen engine sf now name td idv query).2 = cat ∧
      ((∃ m, e = .YamlParse m) ∨ (∃ m, e = .TemplateRender m) ∨
        (∃ m, e = .Database m)) := by
  unfold renderMiss at h ⊢
  cases hb : baseValues td with
  | error e' =>
    simp only [hb] at h ⊢
    refine ⟨by trivial, Or.inl ?_⟩
    exact Except.error.inj h ▸ baseValues_error_shape td e' hb
  | ok values0 =>
    simp only [hb] at h ⊢
    rcases renderGen_error cat gen engine sf now name td idv query values0 e h
      with ⟨hcat, hshape⟩
    exact ⟨hcat, Or.inr hshape⟩

/-- On success the generation path stores through `store_rendered`: the
final catalogue holds exactly one row for `(name, idv)`, carrying the
rendered output and the refreshed timestamp. -/
theorem renderGen_ok (cat : Catalogue) (gen) (engine : TemplateEngine)
    (now name : String) (td : TemplateData) (idv : String)
    (query values0) (s : String)
    (h : (renderGen cat gen engine false now name td idv query values0).1 =
      .ok s) :
    (renderGen cat gen engine false now name td idv query values0).2 =
      cat.filter (fun r => !(rowMatches r name idv)) ++
        [{ id := nextId cat
           template_name := name
           id_field_value := idv
           rendered_content := s
           generated_values := String.mk (emitFlatHash
             ((gen td.dynamic_fields td.hashing_algorithm).map
               (fun p => (p.1.data, p.2.data))))
           created_at := now }] ∧
    engine.render td.template_content
      (composeValues values0 query
        (gen td.dynamic_fields td.hashing_algorithm)) = .ok s := by
  unfold renderGen at h ⊢
  simp only [map_to_yaml_string] at h ⊢
  cases hr : engine.render td.template_content
      (composeValues values0 query
        (gen td.dynamic_fields td.hashing_algorithm)) with
  | error m => simp [hr] at h
  | ok rendered =>
    simp only [hr, store_rendered, if_false, Bool.false_eq_true] at h ⊢
    have hs : rendered = s := by simpa using h
    subst hs
    exact ⟨rfl, rfl⟩

/-- `ConcreteHandler::handle_set_template`: validate through the engine,
then upsert the content. -/
def handle_set_template (engine : TemplateEngine) (ts : TStore)
    (name content : String) : Except ProvisionrError Unit × TStore :=
  match engine.validate content with
  | .error e => (.error (.TemplateValidation e), ts)
  | .ok _ => (.ok (), ts.set_template_content name content)

/-- `ConcreteHandler::handle_set_values`: parse the YAML (rejecting it on
parse error), then store the raw string, wrapping the store's not-found
message in `TemplateNotFound`. -/
def handle_set_values (ts : TStore) (name yaml_str : String) :
    Except ProvisionrError Unit × TStore :=
  match parse_yaml yaml_str with
  | .error e => (.error e, ts)
  | .ok _ =>
      match ts.set_values name yaml_str with
      | .error e => (.error (.TemplateNotFound e), ts)
      | .ok ts2 => (.ok (), ts2)

/-- The `Command::DeleteTemplate` arm of `handle_command`
(src/threads/handler.rs lines 128-132): `template_store.delete(&name)`,
reply `Ok(())`; the rendered store is not touched. -/
def handle_delete_template (ts : TStore) (cat : Catalogue) (name : String) :
    (Except String Unit × TStore) × Catalogue :=
  ((.ok (), ts.delete name), cat)

/-! ## HTTP boundary (src/rest/template.rs)

Replies are `(status, body)`; `CommandError::Handler(e)` maps to
`400` with the stringified error as body (src/rest/command.rs). -/

/-- Display strings of `ProvisionrError` (the `thiserror` messages of
src/error.rs), which `handle_command` sends through the reply channel via
`e.to_string()`. -/
def ProvisionrError.message : ProvisionrError → String
  | .TemplateValidation m => "Template validation failed: " ++ m
  | .YamlParse m => "YAML parse error: " ++ m
  | .TemplateRender m => "Template render failed: " ++ m
  | .Database m => "Database error: " ++ m
  | .TemplateNotFound n => "Template not found: " ++ n
  | .TemplateEmpty n => "Template has no content: " ++ n
  | .MissingField f => "Missing required field: " ++ f

/-- An HTTP reply: status code and body text. -/
structure HttpReply where
  status : Nat
  body : String
deriving DecidableEq, Repr

/-- The state behind the HTTP boundary: the template store and the
rendered catalogue owned by the dispatcher. -/
structure ServerState where
  ts : TStore
  cat : Catalogue

/-- `str::ends_with`, expressed on the character lists. -/
def strEndsWith (s suffix : String) : Bool :=
  suffix.data.isSuffixOf s.data

/-- `POST /api/v1/template/{name}` (src/rest/template.rs `set_template`):
append `.j2` to the path name when it is missing, then dispatch
`Command::SetTemplate` with the suffixed name. -/
def postTemplate (engine : TemplateEngine) (s : ServerState)
    (name content : String) : HttpReply × ServerState :=
  let template_name := if strEndsWith name ".j2" then name else name ++ ".j2"
  match handle_set_template engine s.ts template_name content with
  | (.error e, ts2) =>
      ({ status := 400, body := e.message }, { s with ts := ts2 })
  | (.ok _, ts2) =>
      ({ status := 200, body := "template set" }, { s with ts := ts2 })

/-- `PUT /api/v1/template/{name}/values` (src/rest/template.rs
`set_values`): dispatch `Command::SetValues` with the path name as-is. -/
def putValues (s : ServerState) (name yaml : String) :
    HttpReply × ServerState :=
  match handle_set_values s.ts name yaml with
  | (.error e, ts2) =>
      ({ status := 400, body := e.message }, { s with ts := ts2 })
  | (.ok _, ts2) =>
      ({ status := 200, body := "values set" }, { s with ts := ts2 })

/-- `GET /api/v1/template/{name}` (src/rest/template.rs
`render_template`): dispatch `Command::RenderTemplate` with the path name
as-is; a success is the rendered text, a handler error a 400 with the
stringified error. -/
def getTemplate (s : ServerState)
    (gen : List DynamicFieldConfig → HashingAlgorithm →
      List (String × String))
    (engine : TemplateEngine) (now : String) (name : String)
    (query : List (String × String)) : HttpReply × ServerState :=
  match handle_render s.ts s.cat gen engine false false now name query with
  | (.error e, cat2) =>
      ({ status := 400, body := e.message }, { s with cat := cat2 })
  | (.ok rendered, cat2) =>
      ({ status := 200, body := rendered }, { s with cat := cat2 })

/-! ### Catalogue upsert lemmas -/

theorem find?_after_upsert (cat : Catalogue) (name idv : String)
    (row : RenderedTemplate) (hrow : rowMatches row name idv = true) :
    (cat.filter (fun r => !(rowMatches r name idv)) ++ [row]).find?
      (fun r => rowMatches r name idv) = some row := by
  induction cat with
  | nil => simp [List.find?, hrow]
  | cons r cat ih =>
    by_cases hr : rowMatches r name idv
    · simpa [List.filter_cons, hr] using ih
    · simpa [List.filter_cons, hr, List.find?] using ih

theorem mem_upsert_unique (cat : Catalogue) (name idv : String)
    (row r : RenderedTemplate)
    (hr : r ∈ cat.filter (fun x => !(rowMatches x name idv)) ++ [row])
    (hm : rowMatches r name idv = true) : r = row := by
  rcases List.mem_append.mp hr with h1 | h2
  · have hneg := (List.mem_filter.mp h1).2
    rw [hm] at hneg
    exact absurd hneg (by simp)
  · simpa using h2

/-- On success the whole generation path upserts the row for
`(name, idv)`: the final catalogue is the old one minus any row for that
key, plus a fresh row holding the rendered output. -/
theorem renderMiss_ok_catalogue (cat : Catalogue) (gen)
    (engine : TemplateEngine) (now name : String) (td : TemplateData)
    (idv : String) (query) (s : String)
    (h : (renderMiss cat gen engine false now name td idv query).1 = .ok s) :
    ∃ gy, (renderMiss cat gen engine false now name td idv query).2 =
      cat.filter (fun r => !(rowMatches r name idv)) ++
        [{ id := nextId cat
           template_name := name
           id_field_value := idv
           rendered_content := s
           generated_values := gy
           created_at := now }] := by
  unfold renderMiss at h ⊢
  cases hb : baseValues td with
  | error e =>
    simp only [hb] at h
    exact Except.noConfusion h
  | ok values0 =>
    simp only [hb] at h ⊢
    exact ⟨_, (renderGen_ok cat gen engine now name td idv query values0 s h).1⟩

/-- With the store healthy (`storeFault = false`) the generation path can
only fail parsing the defaults or rendering. -/
theorem renderMiss_error_no_fault (cat : Catalogue) (gen)
    (engine : TemplateEngine) (now name : String) (td : TemplateData)
    (idv : String) (query) (e : ProvisionrError)
    (h : (renderMiss cat gen engine false now name td idv query).1 =
      .error e) :
    (∃ m, e = .YamlParse m) ∨ (∃ m, e = .TemplateRender m) := by
  unfold renderMiss at h
  cases hb : baseValues td with
  | error e' =>
    simp only [hb] at h
    exact Or.inl (Except.error.inj h ▸ baseValues_error_shape td e' hb)
  | ok values0 =>
    simp only [hb] at h
    unfold renderGen at h
    simp only [map_to_yaml_string] at h
    cases hr : engine.render td.template_content
        (composeValues values0 query
          (gen td.dynamic_fields td.hashing_algorithm)) with
    | error m =>
      simp only [hr] at h
      exact Or.inr ⟨m, (Except.error.inj h).symm⟩
    | ok rendered =>
      simp [hr, store_rendered] at h

/-- The reply value of the generation path does not depend on the incoming
catalogue (only the stored rows do). -/
theorem renderMiss_fst_independent_of_cat (cat cat' : Catalogue) (gen)
    (engine : TemplateEngine) (sf : Bool) (now name : String)
    (td : TemplateData) (idv : String) (query) :
    (renderMiss cat gen engine sf now name td idv query).1 =
      (renderMiss cat' gen engine sf now name td idv query).1 := by
  unfold renderMiss
  cases hb : baseValues td with
  | error e => simp [hb]
  | ok values0 =>
    simp only [hb]
    unfold renderGen
    simp only [map_to_yaml_string]
    cases hr : engine.render td.template_content
        (composeValues values0 query
          (gen td.dynamic_fields td.hashing_algorithm)) with
    | error m => simp [hr]
    | ok rendered =>
      cases sf with
      | true => simp [hr, store_rendered]
      | false => simp [hr, store_rendered]

/-- No row of a catalogue purged of the `(name, idv)` key matches it. -/
theorem find?_filterNot (cat : Catalogue) (name idv : String) :
    (cat.filter (fun r => !(rowMatches r name idv))).find?
      (fun r => rowMatches r name idv) = Option.none := by
  induction cat with
  | nil => rfl
  | cons r cat ih =>
    by_cases hr : rowMatches r name idv
    · rw [List.filter_cons_of_neg (by simp [hr])]
      exact ih
    · rw [List.filter_cons_of_pos (by simp [hr]), List.find?_cons_of_neg _
        (by simp [hr])]
      exact ih

/-- With template present, content non-empty and identity present, the
pipeline either succeeds or fails with a parse, render or database
error — never with the three early errors. -/
theorem handle_render_late (ts : TStore) (cat : Catalogue) (gen)
    (engine : TemplateEngine) (gf sf : Bool) (now name idv : String) (query)
    (td : TemplateData) (hts : ts name = some td)
    (hc : td.template_content ≠ "")
    (hq : lookupKV query td.id_field = some idv) :
    (∃ s, (handle_render ts cat gen engine gf sf now name query).1 = .ok s) ∨
    (∃ e, (handle_render ts cat gen engine gf sf now name query).1 =
        .error e ∧
      ((∃ m, e = .YamlParse m) ∨ (∃ m, e = .TemplateRender m) ∨
        (∃ m, e = .Database m))) := by
  cases gf with
  | true =>
    rw [handle_render_get_fault ts cat gen engine sf now name idv query td
      hts hc hq]
    cases hres : (renderMiss cat gen engine sf now name td idv query).1 with
    | ok s => exact Or.inl ⟨s, rfl⟩
    | error e =>
      exact Or.inr ⟨e, rfl,
        (renderMiss_error cat gen engine sf now name td idv query e hres).2⟩
  | false =>
    cases hrow : cat.find? (fun r => rowMatches r name idv) with
    | some row =>
      rw [handle_render_hit ts cat gen engine sf now name idv query td row
        hts hc hq hrow]
      exact Or.inl ⟨row.rendered_content, rfl⟩
    | none =>
      rw [handle_render_miss ts cat gen engine sf now name idv query td
        hts hc hq hrow]
      cases hres : (renderMiss cat gen engine sf now name td idv query).1 with
      | ok s => exact Or.inl ⟨s, rfl⟩
      | error e =>
        exact Or.inr ⟨e, rfl,
          (renderMiss_error cat gen engine sf now name td idv query e hres).2⟩

/-- In a map with distinct keys — as every Rust `HashMap` iteration is —
the last and the first binding of a key coincide. -/
theorem lookupLast_eq_lookupKV_of_nodup (xs : List (String × String))
    (hn : (xs.map Prod.fst).Nodup) (k : String) :
    lookupLast xs k = lookupKV xs k := by
  induction xs with
  | nil => rfl
  | cons p xs ih =>
    rw [List.map_cons, List.nodup_cons] at hn
    by_cases hk : p.1 = k
    · have hnot : k ∉ xs.map Prod.fst := hk ▸ hn.1
      simp [lookupLast, lookupKV, hk,
        lookupLast_eq_none_of_not_mem xs k hnot]
    · have hx := ih hn.2
      cases hlast : lookupLast xs k with
      | some v =>
        simp only [lookupLast, lookupKV, hlast, if_neg hk]
        rw [← hx, hlast]
      | none =>
        simp only [lookupLast, lookupKV, hlast, if_neg hk]
        rw [← hx, hlast]

/-! ### Shared witness material -/

/-- A trivially accepting engine for witnesses: validates everything and
renders a template to its own text. -/
def constEngine : TemplateEngine :=
  ⟨fun _ => .ok (), fun c _ => .ok c⟩

/-- An engine rendering a template to the binding of the variable `k`:
used to observe which binding the pipeline hands to the engine. -/
def projEngine (k : String) : TemplateEngine :=
  ⟨fun _ => .ok (), fun _ vs => .ok ((lookupKV vs k).getD "")⟩

/-- A generator stub producing no dynamic values. -/
def noGen : List DynamicFieldConfig → HashingAlgorithm →
    List (String × String) :=
  fun _ _ => []

/-! ## Claim C9 -/

/-- **C9.** `DeleteTemplate` removes only the template-store record: the
reply is `Ok(())`, the store maps the deleted name to nothing and every
other name to its old record, the catalogue value is unchanged, and
`list_rendered` returns the same rows for every template name before and
after the delete. -/
theorem delete_template_preserves_catalogue (ts : TStore) (cat : Catalogue)
    (name : String) :
    (handle_delete_template ts cat name).2 = cat ∧
    (handle_delete_template ts cat name).1.1 = .ok () ∧
    (∀ m, (handle_delete_template ts cat name).1.2 m =
      if m = name then Option.none else ts m) ∧
    (∀ n, list_rendered (handle_delete_template ts cat name).2 n =
      list_rendered cat n) :=
  ⟨rfl, rfl, fun _ => rfl, fun _ => rfl⟩

/-! ## Claim C1 -/

/-- The store of the C1 counterexample: template `t` exists but its
content is the empty string. -/
def c1Store : TStore :=
  TStore.empty.put "t" { template_content := "", id_field := "mac_address" }

/-- The catalogue of the C1 counterexample: a rendered artifact for
`(t, AA)` already exists. -/
def c1Row : RenderedTemplate :=
  { id := 1
    template_name := "t"
    id_field_value := "AA"
    rendered_content := "CACHED"
    generated_values := "---\n\x7b\x7d"
    created_at := "2024-01-01T00:00:00Z" }

/-- **C1 counterexample.** As frozen, the claim quantifies over *every*
template record. For the record with empty content, `handle_render`
answers `TemplateEmpty` — the empty-content check runs *before* the
catalogue lookup — even though a rendered artifact for the queried
identity exists in the catalogue, so the artifact's `rendered_content` is
not returned. -/
theorem render_cache_hit_empty_content_cex :
    c1Store "t" = some { template_content := "", id_field := "mac_address" } ∧
    [c1Row].find? (fun r => rowMatches r "t" "AA") = some c1Row ∧
    (handle_render c1Store [c1Row] noGen constEngine false false
        "2024-02-02T00:00:00Z" "t" [("mac_address", "AA")]).1 =
      .error (.TemplateEmpty "t") ∧
    (.error (.TemplateEmpty "t") : Except ProvisionrError String) ≠
      .ok c1Row.rendered_content :=
  ⟨rfl, rfl, rfl, fun h => Except.noConfusion h⟩

/-- **C1 (amended: the record's content must be non-empty).** For every
template record with non-empty content and every query containing its
`id_field`: (1) when a rendered artifact for `(name, identity)` exists in
the catalogue, `handle_render` returns exactly that artifact's
`rendered_content` and leaves the catalogue unchanged — for *any*
generator and engine, so nothing is generated or stored; and (2) any
successful render followed by a second render of the same identity (with
any generator and engine) returns byte-equal output. -/
theorem render_cache_hit_returns_artifact (ts : TStore) (cat : Catalogue)
    (gen gen2) (engine engine2 : TemplateEngine) (sf : Bool)
    (now now2 name idv : String) (query) (td : TemplateData)
    (hts : ts name = some td) (hne : td.template_content ≠ "")
    (hid : lookupKV query td.id_field = some idv) :
    (∀ row, cat.find? (fun r => rowMatches r name idv) = some row →
      handle_render ts cat gen engine false sf now name query =
        (.ok row.rendered_content, cat)) ∧
    (∀ s, (handle_render ts cat gen engine false false now name query).1 =
        .ok s →
      (handle_render ts
        (handle_render ts cat gen engine false false now name query).2
        gen2 engine2 false false now2 name query).1 = .ok s) := by
  constructor
  · intro row hrow
    exact handle_render_hit ts cat gen engine sf now name idv query td row
      hts hne hid hrow
  · intro s hs
    cases hrow : cat.find? (fun r => rowMatches r name idv) with
    | some row =>
      have h1 := handle_render_hit ts cat gen engine false now name idv query
        td row hts hne hid hrow
      rw [h1] at hs ⊢
      have hsr : row.rendered_content = s := by simpa using hs
      rw [handle_render_hit ts cat gen2 engine2 false now2 name idv query
        td row hts hne hid hrow]
      simp [hsr]
    | none =>
      have h1 := handle_render_miss ts cat gen engine false now name idv query
        td hts hne hid hrow
      rw [h1] at hs ⊢
      rcases renderMiss_ok_catalogue cat gen engine now name td idv query s hs
        with ⟨gy, hcat⟩
      rw [hcat]
      set row : RenderedTemplate :=
        { id := nextId cat
          template_name := name
          id_field_value := idv
          rendered_content := s
          generated_values := gy
          created_at := now } with hrowdef
      have hmatch : rowMatches row name idv = true := by
        simp [rowMatches, hrowdef]
      have hfind := find?_after_upsert cat name idv row hmatch
      rw [handle_render_hit ts _ gen2 engine2 false now2 name idv query td row
        hts hne hid hfind]

/-- A one-template store for witnesses. -/
def w1Data : TemplateData :=
  { template_content := "Hi", id_field := "mac_address" }

/-- The witness store: one template `w` with content `Hi`. -/
def w1Store : TStore := TStore.empty.put "w" w1Data

/-- An existing artifact for `(w, AA)`. -/
def w1Row : RenderedTemplate :=
  { id := 1
    template_name := "w"
    id_field_value := "AA"
    rendered_content := "HELLO"
    generated_values := "---\n\x7b\x7d"
    created_at := "2024-01-01T00:00:00Z" }

/-- Witness for C1: on the concrete store and catalogue, the cached
artifact body is returned and the catalogue is untouched. -/
theorem render_cache_hit_returns_artifact_witness :
    handle_render w1Store [w1Row] noGen constEngine false false "t1" "w"
      [("mac_address", "AA")] = (.ok "HELLO", [w1Row]) :=
  (render_cache_hit_returns_artifact w1Store [w1Row] noGen noGen constEngine
    constEngine false "t1" "t2" "w" "AA" [("mac_address", "AA")] w1Data
    rfl (by decide) rfl).1 w1Row rfl

/-! ## Claim C5 -/

/-- **C5.** `handle_render` fails with `TemplateNotFound` exactly when the
name is absent from the store; otherwise with `TemplateEmpty` exactly when
the record's content is empty; otherwise with `MissingField(id_field)`
exactly when the query lacks the record's `id_field` — in that order; and
in each of these failure cases the catalogue is unchanged and the outcome
is the same for every generator and engine (nothing is rendered or
stored). -/
theorem render_error_cases (ts : TStore) (cat : Catalogue) (gen)
    (engine : TemplateEngine) (gf sf : Bool) (now name : String) (query) :
    ((handle_render ts cat gen engine gf sf now name query).1 =
        .error (.TemplateNotFound name) ↔ ts name = Option.none) ∧
    ((handle_render ts cat gen engine gf sf now name query).1 =
        .error (.TemplateEmpty name) ↔
      ∃ td, ts name = some td ∧ td.template_content = "") ∧
    (∀ f, (handle_render ts cat gen engine gf sf now name query).1 =
        .error (.MissingField f) ↔
      ∃ td, ts name = some td ∧ td.template_content ≠ "" ∧
        f = td.id_field ∧ lookupKV query td.id_field = Option.none) ∧
    ((ts name = Option.none ∨
        ∃ td, ts name = some td ∧
          (td.template_content = "" ∨
            lookupKV query td.id_field = Option.none)) →
      (handle_render ts cat gen engine gf sf now name query).2 = cat ∧
      ∀ gen2 engine2,
        handle_render ts cat gen2 engine2 gf sf now name query =
          handle_render ts cat gen engine gf sf now name query) := by
  cases hts : ts name with
  | none =>
    have hr := fun g e =>
      handle_render_not_found ts cat g e gf sf now name query hts
    refine ⟨?_, ?_, ?_, ?_⟩
    · simp [hr gen engine, hts]
    · simp [hr gen engine, hts]
    · intro f; simp [hr gen engine, hts]
    · intro _
      exact ⟨by simp [hr gen engine],
        fun g2 e2 => by rw [hr g2 e2, hr gen engine]⟩
  | some td =>
    by_cases hc : td.template_content = ""
    · have hr := fun g e =>
        handle_render_empty ts cat g e gf sf now name query td hts hc
      refine ⟨?_, ?_, ?_, ?_⟩
      · simp [hr gen engine, hts]
      · simp [hr gen engine, hts, hc]
      · intro f; simp [hr gen engine, hts, hc]
      · intro _
        exact ⟨by simp [hr gen engine],
          fun g2 e2 => by rw [hr g2 e2, hr gen engine]⟩
    · cases hq : lookupKV query td.id_field with
      | none =>
        have hr := fun g e =>
          handle_render_missing_field ts cat g e gf sf now name query td
            hts hc hq
        refine ⟨?_, ?_, ?_, ?_⟩
        · simp [hr gen engine, hts]
        · simp [hr gen engine, hts, hc]
        · intro f
          simp [hr gen engine, hts, hc, hq]
          exact eq_comm
        · intro _
          exact ⟨by simp [hr gen engine],
            fun g2 e2 => by rw [hr g2 e2, hr gen engine]⟩
      | some idv =>
        have hframe :
            ¬ ((some td : Option TemplateData) = Option.none ∨
              ∃ td', (some td : Option TemplateData) = some td' ∧
                (td'.template_content = "" ∨
                  lookupKV query td'.id_field = Option.none)) := by
          rintro (h | ⟨td', htd', h2⟩)
          · exact Option.noConfusion h
          · obtain rfl : td = td' := Option.some.inj htd'
            rcases h2 with h2 | h2
            · exact hc h2
            · rw [hq] at h2; exact Option.noConfusion h2
        rcases handle_render_late ts cat gen engine gf sf now name idv query
            td hts hc hq with ⟨s, hok⟩ | ⟨e, herr, hshape⟩
        · refine ⟨?_, ?_, ?_, fun h => absurd h hframe⟩
          · simp [hok, hts]
          · simp [hok, hts, hc]
          · intro f; simp [hok, hts, hc, hq]
        · have hne1 : e ≠ .TemplateNotFound name := by
            rcases hshape with ⟨m, rfl⟩ | ⟨m, rfl⟩ | ⟨m, rfl⟩ <;> simp
          have hne2 : e ≠ .TemplateEmpty name := by
            rcases hshape with ⟨m, rfl⟩ | ⟨m, rfl⟩ | ⟨m, rfl⟩ <;> simp
          have hne3 : ∀ f, e ≠ .MissingField f := by
            intro f
            rcases hshape with ⟨m, rfl⟩ | ⟨m, rfl⟩ | ⟨m, rfl⟩ <;> simp
          refine ⟨?_, ?_, ?_, fun h => absurd h hframe⟩
          · simp [herr, hts, hne1]
          · simp [herr, hts, hc, hne2]
          · intro f; simp [herr, hts, hc, hq, hne3 f]

/-- Witness for C5: a concrete store where the name is absent, where the
content is empty, and where the identity is missing from the query, each
producing the corresponding error. -/
theorem render_error_cases_witness :
    (handle_render w1Store [] noGen constEngine false false "t" "nope"
        []).1 = .error (.TemplateNotFound "nope") ∧
    (handle_render c1Store [] noGen constEngine false false "t" "t"
        [("mac_address", "AA")]).1 = .error (.TemplateEmpty "t") ∧
    (handle_render w1Store [] noGen constEngine false false "t" "w"
        []).1 = .error (.MissingField "mac_address") :=
  ⟨(render_error_cases w1Store [] noGen constEngine false false "t" "nope"
      []).1.mpr (by decide),
    (render_error_cases c1Store [] noGen constEngine false false "t" "t"
      [("mac_address", "AA")]).2.1.mpr
      ⟨{ template_content := "", id_field := "mac_address" }, by decide,
        rfl⟩,
    ((render_error_cases w1Store [] noGen constEngine false false "t" "w"
      []).2.2.1 "mac_address").mpr ⟨w1Data, by decide, by decide, rfl, rfl⟩⟩

/-! ## Claim C10 -/

/-- **C10.** When the catalogue lookup of a render reports a database
error (`getFault = true`) while the template, its content and the identity
are all present: (1) no database error reaches the caller; (2) the reply
is exactly the reply of a clean cache miss (the same pipeline run against
the catalogue purged of that key); and (3) on success the store upserts —
afterwards the catalogue holds exactly one row for `(name, identity)`,
carrying the fresh output and the refreshed timestamp, any previously
existing row for that key having been replaced. -/
theorem db_error_on_lookup_is_miss (ts : TStore) (cat : Catalogue) (gen)
    (engine : TemplateEngine) (now name idv : String) (query)
    (td : TemplateData) (hts : ts name = some td)
    (hne : td.template_content ≠ "")
    (hid : lookupKV query td.id_field = some idv) :
    (∀ m, (handle_render ts cat gen engine true false now name query).1 ≠
      .error (.Database m)) ∧
    ((handle_render ts cat gen engine true false now name query).1 =
      (handle_render ts (cat.filter (fun r => !(rowMatches r name idv)))
        gen engine false false now name query).1) ∧
    (∀ s, (handle_render ts cat gen engine true false now name query).1 =
        .ok s →
      ∃ row,
        (handle_render ts cat gen engine true false now name
          query).2.find? (fun r => rowMatches r name idv) = some row ∧
        row.rendered_content = s ∧ row.created_at = now ∧
        ∀ r ∈ (handle_render ts cat gen engine true false now name query).2,
          rowMatches r name idv = true → r = row) := by
  have hfault := handle_render_get_fault ts cat gen engine false now name idv
    query td hts hne hid
  refine ⟨?_, ?_, ?_⟩
  · intro m h
    rw [hfault] at h
    rcases renderMiss_error_no_fault cat gen engine now name td idv query _ h
      with ⟨m', hm⟩ | ⟨m', hm⟩ <;> exact ProvisionrError.noConfusion hm
  · rw [hfault,
      handle_render_miss ts (cat.filter (fun r => !(rowMatches r name idv)))
        gen engine false now name idv query td hts hne hid
        (find?_filterNot cat name idv)]
    exact renderMiss_fst_independent_of_cat cat _ gen engine false now name
      td idv query
  · intro s hs
    rw [hfault] at hs ⊢
    rcases renderMiss_ok_catalogue cat gen engine now name td idv query s hs
      with ⟨gy, hcat⟩
    rw [hcat]
    refine ⟨{ id := nextId cat
              template_name := name
              id_field_value := idv
              rendered_content := s
              generated_values := gy
              created_at := now }, ?_, rfl, rfl, ?_⟩
    · exact find?_after_upsert cat name idv _ (by simp [rowMatches])
    · intro r hr hm
      exact mem_upsert_unique cat name idv _ r hr hm

/-- Witness for C10: with the lookup faulted over a catalogue that already
holds a row for `(w, AA)`, the render succeeds with freshly generated
output instead of the cached body, and the old row is replaced. -/
theorem db_error_on_lookup_is_miss_witness :
    (handle_render w1Store [w1Row] noGen constEngine true false "t9" "w"
        [("mac_address", "AA")]).1 = .ok "Hi" ∧
    ((handle_render w1Store [w1Row] noGen constEngine true false "t9" "w"
        [("mac_address", "AA")]).1 ≠
      .error (.Database "Database query failed")) := by
  refine ⟨rfl, ?_⟩
  exact (db_error_on_lookup_is_miss w1Store [w1Row] noGen constEngine "t9"
    "w" "AA" [("mac_address", "AA")] w1Data rfl (by decide) rfl).1
    "Database query failed"

/-! ## Claim C4 -/

/-- **C4.** On a cache miss the binding map is composed in precedence
order `values_yaml` → query → generated (lowest to highest). For a key `k`
bound to `a` by the defaults and to `b` by the query, the map handed to
the engine binds `k` to `b` when the generated map has no binding for `k`,
and to the generated value when it has one; consequently an engine that
outputs the binding of `k` renders `b`, respectively the generated
value. -/
theorem binding_precedence (ts : TStore) (cat : Catalogue) (gen)
    (now name idv : String) (query) (td : TemplateData) (ys : String)
    (y : Yaml) (k a b : String)
    (hts : ts name = some td) (hne : td.template_content ≠ "")
    (hid : lookupKV query td.id_field = some idv)
    (hmiss : cat.find? (fun r => rowMatches r name idv) = Option.none)
    (hys : td.values_yaml = some ys) (hparse : parse_yaml ys = .ok y)
    (_hyk : lookupKV (yaml_to_map y) k = some a)
    (hqn : (query.map Prod.fst).Nodup)
    (hqk : lookupKV query k = some b) :
    (k ∉ (gen td.dynamic_fields td.hashing_algorithm).map Prod.fst →
      lookupKV (composeValues (yaml_to_map y) query
        (gen td.dynamic_fields td.hashing_algorithm)) k = some b ∧
      (handle_render ts cat gen (projEngine k) false false now name
        query).1 = .ok b) ∧
    (∀ gv, lookupLast (gen td.dynamic_fields td.hashing_algorithm) k =
        some gv →
      lookupKV (composeValues (yaml_to_map y) query
        (gen td.dynamic_fields td.hashing_algorithm)) k = some gv ∧
      (handle_render ts cat gen (projEngine k) false false now name
        query).1 = .ok gv) := by
  have hbase : baseValues td = .ok (yaml_to_map y) := by
    unfold baseValues
    simp only [hys, hparse]
  have hrender :
      handle_render ts cat gen (projEngine k) false false now name query =
        renderMiss cat gen (projEngine k) false now name td idv query :=
    handle_render_miss ts cat gen (projEngine k) false now name idv query td
      hts hne hid hmiss
  have hval : (renderMiss cat gen (projEngine k) false now name td idv
      query).1 =
      .ok ((lookupKV (composeValues (yaml_to_map y) query
        (gen td.dynamic_fields td.hashing_algorithm)) k).getD "") := by
    unfold renderMiss renderGen
    simp [hbase, map_to_yaml_string, projEngine, store_rendered]
  constructor
  · intro hnotgen
    have hlook : lookupKV (composeValues (yaml_to_map y) query
        (gen td.dynamic_fields td.hashing_algorithm)) k = some b := by
      unfold composeValues
      rw [lookupKV_insertAll, lookupLast_eq_none_of_not_mem _ _ hnotgen,
        lookupKV_insertAll, lookupLast_eq_lookupKV_of_nodup query hqn, hqk]
    refine ⟨hlook, ?_⟩
    rw [hrender, hval, hlook]
    rfl
  · intro gv hgv
    have hlook : lookupKV (composeValues (yaml_to_map y) query
        (gen td.dynamic_fields td.hashing_algorithm)) k = some gv := by
      unfold composeValues
      rw [lookupKV_insertAll, hgv]
    refine ⟨hlook, ?_⟩
    rw [hrender, hval, hlook]
    rfl

/-- The template record of the C4 witness: defaults bind `k` to `a`. -/
def c4Data : TemplateData :=
  { template_content := "T"
    id_field := "mac_address"
    values_yaml := some "k: a" }

/-- The store of the C4 witness. -/
def c4Store : TStore := TStore.empty.put "p" c4Data

/-- Witness for C4: with defaults `k: a`, query `k=b` and a generated map
binding only `pw`, the render through the projection engine for `k`
returns `b`; with a generated map that also binds `k`, it returns the
generated value. -/
theorem binding_precedence_witness :
    (handle_render c4Store [] (fun _ _ => [("pw", "GEN")]) (projEngine "k")
        false false "t" "p" [("mac_address", "AA"), ("k", "b")]).1 =
      .ok "b" ∧
    (handle_render c4Store [] (fun _ _ => [("k", "GEN")]) (projEngine "k")
        false false "t" "p" [("mac_address", "AA"), ("k", "b")]).1 =
      .ok "GEN" :=
  ⟨((binding_precedence c4Store [] (fun _ _ => [("pw", "GEN")]) "t" "p" "AA"
      [("mac_address", "AA"), ("k", "b")] c4Data "k: a"
      (.hash [(.str "k", .str "a")]) "k" "a" "b" rfl (by decide) rfl rfl rfl
      rfl rfl (by decide) rfl).1 (by decide)).2,
    (((binding_precedence c4Store [] (fun _ _ => [("k", "GEN")]) "t" "p" "AA"
      [("mac_address", "AA"), ("k", "b")] c4Data "k: a"
      (.hash [(.str "k", .str "a")]) "k" "a" "b" rfl (by decide) rfl rfl rfl
      rfl rfl (by decide) rfl).2 "GEN") rfl).2⟩

/-! ## Claim C2 -/

theorem charset_getD_mem (i : Nat) :
    alphanumericCharset.getD (i % 62) 'A' ∈ alphanumericCharset := by
  have hlen : alphanumericCharset.length = 62 := by decide
  have h : i % 62 < alphanumericCharset.length := by
    rw [hlen]
    exact Nat.mod_lt _ (by norm_num)
  rw [List.getD_eq_getElem alphanumericCharset 'A' h]
  exact List.getElem_mem h

theorem alphanumericGenerate_chars (len : Nat) (rng : Nat → Nat) :
    ∀ c ∈ (alphanumericGenerate len rng).data, c ∈ alphanumericCharset := by
  intro c hc
  rcases List.mem_map.mp hc with ⟨i, _, rfl⟩
  exact charset_getD_mem (rng i)

/-- The field configuration on which C2 fails: an alphanumeric(16) field
marked for SHA-512 hashing. -/
def c2Field : DynamicFieldConfig :=
  { field_name := "password"
    generator_type := .alphanumeric 16
    hashing_algorithm := .sha512 }

/-- **C2 (code bug).** For any RNG and wordlist,
`ConcreteCommander::generate_dynamic_values` binds `password` to the *raw*
generator output: the recorded value is the 16-character alphanumeric
string itself, whose characters are all alphanumeric, so it cannot begin
with the `$6$` crypt prefix — while the hasher contract for `Sha512`
always produces a `$6$`-prefixed string. No hasher is ever invoked by
the generation loop (the function has no access to any hashing
algorithm). -/
theorem generate_dynamic_values_unhashed (wl : List (List Char))
    (rngs : Nat → Nat → Nat) :
    lookupKV (generate_dynamic_values [c2Field] wl rngs) "password" =
      some (alphanumericGenerate 16 (rngs 0)) ∧
    (alphanumericGenerate 16 (rngs 0)).length = 16 ∧
    (∀ c ∈ (alphanumericGenerate 16 (rngs 0)).data, c.isAlphanum = true) ∧
    (("$6$").data.isPrefixOf (alphanumericGenerate 16 (rngs 0)).data) =
      false ∧
    ∀ payload password,
      ("$6$").data.isPrefixOf
        (hasherOutput .sha512 payload password).data = true := by
  refine ⟨rfl, by simp [alphanumericGenerate, String.length], ?_, ?_, ?_⟩
  · intro c hc
    have hmem := alphanumericGenerate_chars 16 (rngs 0) c hc
    have hall : ∀ x ∈ alphanumericCharset, x.isAlphanum = true := by decide
    exact hall c hmem
  · have hchars := alphanumericGenerate_chars 16 (rngs 0)
    cases hdata : (alphanumericGenerate 16 (rngs 0)).data with
    | nil =>
      exfalso
      have : (alphanumericGenerate 16 (rngs 0)).data.length = 16 := by
        simp [alphanumericGenerate]
      rw [hdata] at this
      exact absurd this (by norm_num)
    | cons c rest =>
      have hcmem : c ∈ alphanumericCharset := by
        have := hchars c (by rw [hdata]; exact List.mem_cons_self c rest)
        exact this
      have hnotin : '$' ∉ alphanumericCharset := by decide
      have hcne : ('$' == c) = false := by
        apply beq_eq_false_iff_ne.mpr
        intro h
        rw [← h] at hcmem
        exact hnotin hcmem
      show List.isPrefixOf ('$' :: '6' :: '$' :: []) (c :: rest) = false
      simp [List.isPrefixOf_cons₂, hcne]
  · intro payload password
    show List.isPrefixOf ('$' :: '6' :: '$' :: [])
      (('$' :: '6' :: '$' :: []) ++ payload.data) = true
    simp

/-! ## Claim C3 -/

/-- **C3 (code bug).** The scenario `POST /template/greet` (body
`Hello {{ name }}`), `PUT /template/greet/values` (`name: World`),
`GET /template/greet?mac_address=AA` cannot yield `200 "Hello World"` on
this code: `set_template` appends `.j2` to the path name and stores the
record under `greet.j2`, while `set_values` and `render_template` look up
the raw name `greet` — the three endpoints do not address the same stored
record, so the PUT and the GET both answer `400` with a not-found body,
for every engine that accepts the uploaded template. -/
theorem template_name_suffix_scenario (engine : TemplateEngine) (gen)
    (now : String)
    (hv : engine.validate "Hello \x7b\x7b name \x7d\x7d" = .ok ()) :
    (postTemplate engine ⟨TStore.empty, []⟩ "greet"
        "Hello \x7b\x7b name \x7d\x7d").1.status = 200 ∧
    (postTemplate engine ⟨TStore.empty, []⟩ "greet"
        "Hello \x7b\x7b name \x7d\x7d").2.ts "greet.j2" =
      some { template_content := "Hello \x7b\x7b name \x7d\x7d"
             id_field := "mac_address" } ∧
    (postTemplate engine ⟨TStore.empty, []⟩ "greet"
        "Hello \x7b\x7b name \x7d\x7d").2.ts "greet" = Option.none ∧
    (putValues (postTemplate engine ⟨TStore.empty, []⟩ "greet"
        "Hello \x7b\x7b name \x7d\x7d").2 "greet" "name: World").1 =
      ⟨400, "Template not found: Template not found: greet"⟩ ∧
    (getTemplate (postTemplate engine ⟨TStore.empty, []⟩ "greet"
        "Hello \x7b\x7b name \x7d\x7d").2 gen engine now "greet"
        [("mac_address", "AA")]).1 = ⟨400, "Template not found: greet"⟩ := by
  have hpost : postTemplate engine ⟨TStore.empty, []⟩ "greet"
      "Hello \x7b\x7b name \x7d\x7d" =
      ({ status := 200, body := "template set" },
        ⟨TStore.empty.set_template_content "greet.j2"
          "Hello \x7b\x7b name \x7d\x7d", []⟩) := by
    unfold postTemplate
    rw [if_neg (by decide)]
    unfold handle_set_template
    rw [hv]
    rfl
  rw [hpost]
  exact ⟨rfl, rfl, rfl, rfl, rfl⟩

/-- Witness for C3 under the concrete always-accepting engine: the PUT on
the unsuffixed name fails with 400. -/
theorem template_name_suffix_scenario_witness :
    (putValues (postTemplate constEngine ⟨TStore.empty, []⟩ "greet"
        "Hello \x7b\x7b name \x7d\x7d").2 "greet" "name: World").1 =
      ⟨400, "Template not found: Template not found: greet"⟩ :=
  (template_name_suffix_scenario constEngine noGen "t" rfl).2.2.2.1

/-! ## Claim C7 -/

theorem chooseWord_mem (words : List (List Char)) (r : Nat)
    (h : words ≠ []) : chooseWord words r ∈ words := by
  cases words with
  | nil => exact absurd rfl h
  | cons w ws =>
    show (w :: ws).getD (r % (w :: ws).length) [] ∈ w :: ws
    have hlt : r % (w :: ws).length < (w :: ws).length :=
      Nat.mod_lt _ (by simp)
    rw [List.getD_eq_getElem (w :: ws) [] hlt]
    exact List.getElem_mem hlt

theorem mem_filterWordlist (lines : List (List Char)) (w : List Char)
    (h : w ∈ filterWordlist lines) :
    w ∈ lines ∧ w ≠ [] ∧ '-' ∉ w := by
  have hm := List.mem_filter.mp h
  refine ⟨hm.1, ?_, ?_⟩
  · have := hm.2
    intro hnil
    subst hnil
    simp at this
  · have := hm.2
    simp only [Bool.and_eq_true, Bool.not_eq_true'] at this
    intro hmem
    have hc : w.contains '-' = true := by
      simpa using hmem
    rw [hc] at this
    exact Bool.noConfusion this.2

/-- **C7 (spec-modelled: the embedded asset `eff_short_wordlist.txt` is
not under `src/`; its content — non-empty lowercase-ASCII words — is
taken from the spec as the hypothesis `hlower`).** For every positive `k`,
the passphrase splits on `-` into exactly the `k` drawn words, each a
non-empty lowercase word of the filtered wordlist (itself free of `-`,
the filter having removed any separator-carrying line at load time). -/
theorem passphrase_segments (k : Nat) (rng : Nat → Nat)
    (lines : List (List Char)) (hk : 0 < k)
    (hlower : ∀ w ∈ lines, ∀ c ∈ w, c.isLower = true)
    (hfne : filterWordlist lines ≠ []) :
    ((passphraseGenerate k (filterWordlist lines) rng).data.splitOn '-') =
      (List.range k).map (fun i => chooseWord (filterWordlist lines)
        (rng i)) ∧
    ((passphraseGenerate k (filterWordlist lines) rng).data.splitOn
      '-').length = k ∧
    (∀ w ∈ (passphraseGenerate k (filterWordlist lines) rng).data.splitOn
        '-',
      w ∈ filterWordlist lines ∧ w ≠ [] ∧ '-' ∉ w ∧
        ∀ c ∈ w, c.isLower = true) := by
  set words : List (List Char) :=
    (List.range k).map (fun i => chooseWord (filterWordlist lines) (rng i))
    with hwords
  have hmem : ∀ w ∈ words, w ∈ filterWordlist lines := by
    intro w hw
    rcases List.mem_map.mp hw with ⟨i, _, rfl⟩
    exact chooseWord_mem (filterWordlist lines) (rng i) hfne
  have hx : ∀ w ∈ words, '-' ∉ w := by
    intro w hw
    exact (mem_filterWordlist lines w (hmem w hw)).2.2
  have hls : words ≠ [] := by
    intro hnil
    have : words.length = k := by simp [hwords]
    rw [hnil] at this
    simp at this
    omega
  have hdata : (passphraseGenerate k (filterWordlist lines) rng).data =
      List.intercalate ['-'] words := rfl
  have hsplit :
      (passphraseGenerate k (filterWordlist lines) rng).data.splitOn '-' =
        words := by
    rw [hdata]
    exact List.splitOn_intercalate words '-' hx hls
  refine ⟨hsplit, by rw [hsplit]; simp [hwords], ?_⟩
  intro w hw
  rw [hsplit] at hw
  rcases mem_filterWordlist lines w (hmem w hw) with ⟨hline, hne, hdash⟩
  exact ⟨hmem w hw, hne, hdash, hlower w hline⟩

/-- Witness for C7: a four-line wordlist (one line empty) and `k = 3`. -/
theorem passphrase_segments_witness :
    ((passphraseGenerate 3
        (filterWordlist [("apple").data, [], ("banana").data,
          ("cherry").data]) (fun i => i)).data.splitOn '-').length = 3 :=
  (passphrase_segments 3 (fun i => i)
    [("apple").data, [], ("banana").data, ("cherry").data]
    (by norm_num) (by decide) (by decide)).2.1

/-! ## Claim C8 -/

theorem escapeChars_cons (c : Char) (v : List Char) :
    escapeChars (c :: v) = escapeChar c ++ escapeChars v := rfl

theorem newline_not_mem_escapeChar (c : Char) : '\n' ∉ escapeChar c := by
  unfold escapeChar
  split_ifs with h1 h2 h3
  · decide
  · decide
  · decide
  · intro hm
    exact h3 ((List.mem_singleton.mp hm).symm)

theorem newline_not_mem_escapeChars (v : List Char) :
    '\n' ∉ escapeChars v := by
  induction v with
  | nil => simp [escapeChars]
  | cons c v ih =>
    rw [escapeChars_cons]
    intro hm
    rcases List.mem_append.mp hm with h | h
    · exact newline_not_mem_escapeChar c h
    · exact ih h

/-- Unescaping inverts escaping of a double-quoted scalar body. -/
theorem unesc_escape (v : List Char) :
    unescQuoted (escapeChars v ++ ['\"']) = .ok v := by
  induction v with
  | nil => rfl
  | cons c v ih =>
    rw [escapeChars_cons, List.append_assoc]
    by_cases h1 : c = '\\'
    · subst h1
      show unescQuoted ('\\' :: '\\' :: (escapeChars v ++ ['\"'])) = _
      simp [unescQuoted, decodeEsc, ih]
    · by_cases h2 : c = '\"'
      · subst h2
        show unescQuoted ('\\' :: '\"' :: (escapeChars v ++ ['\"'])) = _
        simp [unescQuoted, decodeEsc, ih]
      · by_cases h3 : c = '\n'
        · subst h3
          show unescQuoted ('\\' :: 'n' :: (escapeChars v ++ ['\"'])) = _
          simp [unescQuoted, decodeEsc, ih]
        · have hes : escapeChar c = [c] := by
            simp [escapeChar, h1, h2, h3]
          rw [hes]
          show unescQuoted (c :: (escapeChars v ++ ['\"'])) = _
          unfold unescQuoted
          rw [if_neg h2, if_neg h1, ih]

theorem takeWhile_dropWhile_append_cons (p : Char → Bool) (k : List Char)
    (x : Char) (r : List Char) (hk : ∀ c ∈ k, p c = true)
    (hx : p x = false) :
    (k ++ x :: r).takeWhile p = k ∧ (k ++ x :: r).dropWhile p = x :: r := by
  induction k with
  | nil => simp [List.takeWhile_cons, List.dropWhile_cons, hx]
  | cons a k ih =>
    have ha := hk a (List.mem_cons_self a k)
    have h2 := ih (fun c hc => hk c (List.mem_cons_of_mem a hc))
    simp [List.takeWhile_cons, List.dropWhile_cons, ha, h2.1, h2.2]

/-- Parsing inverts emitting for one mapping line with a colon-free key. -/
theorem parseLine_emitLine (k v : List Char) (hk : ∀ c ∈ k, c ≠ ':') :
    parseLine (emitLine k v) =
      .ok (.str (String.mk k), .str (String.mk v)) := by
  have hkb : ∀ c ∈ k, (fun c => decide (c ≠ ':')) c = true := by
    intro c hc
    simpa using hk c hc
  have hemit : emitLine k v =
      k ++ ':' :: ' ' :: '\"' :: (escapeChars v ++ ['\"']) := by
    unfold emitLine
    rw [List.append_assoc, List.append_assoc]
    rfl
  rw [hemit]
  have hsplit := takeWhile_dropWhile_append_cons (fun c => decide (c ≠ ':'))
    k ':' (' ' :: '\"' :: (escapeChars v ++ ['\"'])) hkb (by decide)
  unfold parseLine
  rw [hsplit.2, hsplit.1]
  simp [parseScalar, unesc_escape v]

/-- Each item of `parseLines` processes its own line. -/
theorem parseLines_emitted (entries : List (List Char × List Char))
    (hk : ∀ p ∈ entries, ∀ c ∈ p.1, c ≠ ':') :
    parseLines (entries.map (fun p => emitLine p.1 p.2)) =
      .ok (entries.map
        (fun p => (Yaml.str (String.mk p.1), Yaml.str (String.mk p.2)))) := by
  induction entries with
  | nil => rfl
  | cons e es ih =>
    rw [List.map_cons]
    show parseLines (emitLine e.1 e.2 :: es.map (fun p => emitLine p.1 p.2)) =
      _
    unfold parseLines
    rw [parseLine_emitLine e.1 e.2 (hk e (List.mem_cons_self e es)),
      ih (fun p hp => hk p (List.mem_cons_of_mem e hp))]
    rfl

theorem quote_mem_emitLine (k v : List Char) : '\"' ∈ emitLine k v := by
  unfold emitLine
  exact List.mem_append.mpr (Or.inl (List.mem_append.mpr
    (Or.inr (List.mem_cons_self _ _))))

theorem mem_intercalate_head (sep l : List Char) (ls : List (List Char))
    (x : Char) (hx : x ∈ l) : x ∈ List.intercalate sep (l :: ls) := by
  cases ls with
  | nil => simpa [List.intercalate, List.intersperse] using hx
  | cons b t =>
    unfold List.intercalate
    rw [List.intersperse_cons_cons, List.flatten_cons]
    exact List.mem_append.mpr (Or.inl hx)

theorem newline_not_mem_emitLine (k v : List Char) (hknl : '\n' ∉ k) :
    '\n' ∉ emitLine k v := by
  unfold emitLine
  intro hm
  rcases List.mem_append.mp hm with hm1 | hm2
  · rcases List.mem_append.mp hm1 with hma | hmb
    · rcases List.mem_append.mp hma with hx | hx
      · exact hknl hx
      · revert hx; decide
    · rcases List.mem_cons.mp hmb with hq | h2
      · exact absurd hq (by decide)
      · exact newline_not_mem_escapeChars v h2
  · revert hm2; decide

/-- The modelled loader inverts the modelled emitter on non-empty flat
mappings with alphanumeric keys. -/
theorem loadFlatYaml_emit (entries : List (List Char × List Char))
    (hne : entries ≠ [])
    (hk : ∀ p ∈ entries, ∀ c ∈ p.1, c.isAlphanum = true) :
    loadFlatYaml (emitFlatHash entries) =
      .ok (.hash (entries.map
        (fun p => (Yaml.str (String.mk p.1), Yaml.str (String.mk p.2))))) := by
  have hbody : emitFlatHash entries = ("---\n").data ++
      List.intercalate ['\n'] (entries.map (fun p => emitLine p.1 p.2)) := by
    cases entries with
    | nil => exact absurd rfl hne
    | cons e es => rfl
  rw [hbody]
  unfold loadFlatYaml
  have hpref : ("---\n").data.isPrefixOf (("---\n").data ++
      List.intercalate ['\n'] (entries.map (fun p => emitLine p.1 p.2))) =
        true :=
    List.isPrefixOf_iff_prefix.mpr (List.prefix_append _ _)
  rw [if_pos hpref, List.drop_left' (by decide)]
  have hq : '\"' ∈ List.intercalate ['\n']
      (entries.map (fun p => emitLine p.1 p.2)) := by
    cases entries with
    | nil => exact absurd rfl hne
    | cons e es =>
      rw [List.map_cons]
      exact mem_intercalate_head ['\n'] _ _ '\"' (quote_mem_emitLine e.1 e.2)
  have hne1 : List.intercalate ['\n']
      (entries.map (fun p => emitLine p.1 p.2)) ≠ [] := by
    intro h
    rw [h] at hq
    exact absurd hq (List.not_mem_nil '\"')
  have hne2 : List.intercalate ['\n']
      (entries.map (fun p => emitLine p.1 p.2)) ≠ ("\x7b\x7d").data := by
    intro h
    rw [h] at hq
    revert hq
    decide
  rw [if_neg hne1, if_neg hne2]
  have hnl : ∀ l ∈ entries.map (fun p => emitLine p.1 p.2), '\n' ∉ l := by
    intro l hl
    rcases List.mem_map.mp hl with ⟨p, hp, rfl⟩
    refine newline_not_mem_emitLine p.1 p.2 ?_
    intro hc
    have := hk p hp '\n' hc
    exact absurd this (by decide)
  have hlsne : entries.map (fun p => emitLine p.1 p.2) ≠ [] := by
    cases entries with
    | nil => exact absurd rfl hne
    | cons e es => simp
  rw [List.splitOn_intercalate (entries.map (fun p => emitLine p.1 p.2))
    '\n' hnl hlsne]
  rw [parseLines_emitted entries (fun p hp c hc => by
    intro hcolon
    have := hk p hp c hc
    rw [hcolon] at this
    exact absurd this (by decide))]

theorem insertKV_append_of_not_mem (m : List (String × String))
    (k v : String) (h : k ∉ m.map Prod.fst) :
    insertKV m k v = m ++ [(k, v)] := by
  induction m with
  | nil => rfl
  | cons p m ih =>
    have hp : ¬ p.1 = k := fun hh => h (by simp [hh])
    have hm : k ∉ m.map Prod.fst := fun hh => h (by simp [hh])
    simp [insertKV, hp, ih hm]

theorem yamlEntryStep_scalar (map : List (String × String)) (k : String)
    (v : Yaml) (hv : (scalarString v).isSome = true) :
    yamlEntryStep map (.str k, v) =
      insertKV map k ((scalarString v).getD "") := by
  cases v <;> simp [yamlEntryStep, scalarString] at hv ⊢

/-- Folding scalar string-keyed entries through the `yaml_to_map` loop
appends the stringified pairs, provided the keys are distinct and fresh
for the accumulator. -/
theorem foldl_yamlEntryStep (es : List (String × Yaml))
    (acc : List (String × String))
    (hsc : ∀ p ∈ es, (scalarString p.2).isSome = true)
    (hnd : (es.map Prod.fst).Nodup)
    (hdisj : ∀ p ∈ es, p.1 ∉ acc.map Prod.fst) :
    (es.map (fun p => ((Yaml.str p.1 : Yaml), p.2))).foldl yamlEntryStep
        acc =
      acc ++ es.map (fun p => (p.1, (scalarString p.2).getD "")) := by
  induction es generalizing acc with
  | nil => simp
  | cons p es ih =>
    rw [List.map_cons, List.foldl_cons,
      yamlEntryStep_scalar acc p.1 p.2 (hsc p (List.mem_cons_self p es)),
      insertKV_append_of_not_mem acc p.1 _
        (hdisj p (List.mem_cons_self p es))]
    rw [List.map_cons] at hnd
    rw [ih _ (fun q hq => hsc q (List.mem_cons_of_mem p hq))
      (List.nodup_cons.mp hnd).2 ?_]
    · simp
    · intro q hq
      have hqacc := hdisj q (List.mem_cons_of_mem p hq)
      intro hmem
      rcases List.mem_map.mp hmem with ⟨r, hr, hrq⟩
      rcases List.mem_append.mp hr with hr1 | hr2
      · exact hqacc (hrq ▸ List.mem_map_of_mem Prod.fst hr1)
      · have : r = (p.1, (scalarString p.2).getD "") := by simpa using hr2
        rw [this] at hrq
        have hqp : q.1 = p.1 := hrq.symm
        exact (List.nodup_cons.mp hnd).1
          (hqp ▸ List.mem_map_of_mem Prod.fst hq)

/-- `yaml_to_map` on a mapping of scalar entries with distinct string
keys: every entry survives in order, stringified. -/
theorem yaml_to_map_scalar_hash (es : List (String × Yaml))
    (hsc : ∀ p ∈ es, (scalarString p.2).isSome = true)
    (hnd : (es.map Prod.fst).Nodup) :
    yaml_to_map (.hash (es.map (fun p => (.str p.1, p.2)))) =
      es.map (fun p => (p.1, (scalarString p.2).getD "")) := by
  show (es.map (fun p => ((Yaml.str p.1 : Yaml), p.2))).foldl yamlEntryStep
    [] = _
  rw [foldl_yamlEntryStep es [] hsc hnd (by simp)]
  simp

/-- Special case: all-string mappings read back exactly. -/
theorem yaml_to_map_str_hash (m : List (String × String))
    (hnd : (m.map Prod.fst).Nodup) :
    yaml_to_map (.hash (m.map (fun p => (.str p.1, .str p.2)))) = m := by
  have h1 : m.map (fun p => ((Yaml.str p.1 : Yaml), Yaml.str p.2)) =
      (m.map (fun p => (p.1, Yaml.str p.2))).map
        (fun p => ((Yaml.str p.1 : Yaml), p.2)) := by
    rw [List.map_map]
    rfl
  have h2 := yaml_to_map_scalar_hash (m.map (fun p => (p.1, Yaml.str p.2)))
    (by
      intro p hp
      rcases List.mem_map.mp hp with ⟨q, _, rfl⟩
      rfl)
    (by
      rw [List.map_map]
      exact hnd)
  rw [h1, h2, List.map_map]
  exact (List.map_congr_left (fun p _ => rfl)).trans (List.map_id m)

/-- **C8 (spec-modelled: the YAML codec — the external `yaml_rust2`
loader and emitter — is modelled from the spec on the flat scalar-mapping
fragment the service exchanges).** For every mapping whose top-level
entries have distinct alphanumeric string keys and scalar values:
flattening it, emitting the flat map back to YAML, parsing that string and
flattening again returns the very same flat map. -/
theorem yaml_roundtrip_identity (es : List (String × Yaml))
    (halnum : ∀ p ∈ es, ∀ c ∈ p.1.data, c.isAlphanum = true)
    (hsc : ∀ p ∈ es, (scalarString p.2).isSome = true)
    (hnd : (es.map Prod.fst).Nodup) :
    ∃ s y,
      map_to_yaml_string (yaml_to_map (.hash (es.map
        (fun p => (.str p.1, p.2))))) = .ok s ∧
      parse_yaml s = .ok y ∧
      yaml_to_map y = yaml_to_map (.hash (es.map
        (fun p => (.str p.1, p.2)))) := by
  have hmap := yaml_to_map_scalar_hash es hsc hnd
  rw [hmap]
  set m := es.map (fun p => (p.1, (scalarString p.2).getD "")) with hm
  have hmnd : (m.map Prod.fst).Nodup := by
    have hkeys : m.map Prod.fst = es.map Prod.fst := by
      rw [hm, List.map_map]
      rfl
    rw [hkeys]
    exact hnd
  by_cases hme : m = []
  · rw [hme]
    exact ⟨_, _, rfl, rfl, rfl⟩
  · have hmal : ∀ p ∈ m, ∀ c ∈ p.1.data, c.isAlphanum = true := by
      intro p hp
      rcases List.mem_map.mp hp with ⟨q, hq, rfl⟩
      exact halnum q hq
    set mc := m.map (fun p => (p.1.data, p.2.data)) with hmc
    have hmcne : mc ≠ [] := by
      intro h
      rw [hmc, List.map_eq_nil_iff] at h
      exact hme h
    have hmck : ∀ p ∈ mc, ∀ c ∈ p.1, c.isAlphanum = true := by
      intro p hp
      rcases List.mem_map.mp hp with ⟨q, hq, rfl⟩
      exact hmal q hq
    have hload := loadFlatYaml_emit mc hmcne hmck
    have hhash : mc.map
        (fun p => (Yaml.str (String.mk p.1), Yaml.str (String.mk p.2))) =
        m.map (fun p => ((Yaml.str p.1 : Yaml), Yaml.str p.2)) := by
      rw [hmc, List.map_map]
      exact List.map_congr_left (fun p _ => rfl)
    refine ⟨String.mk (emitFlatHash mc),
      .hash (m.map (fun p => (.str p.1, .str p.2))), rfl, ?_, ?_⟩
    · show (loadFlatYaml (String.mk (emitFlatHash mc)).data).mapError
        ProvisionrError.YamlParse = _
      rw [show (String.mk (emitFlatHash mc)).data = emitFlatHash mc from rfl,
        hload]
      rw [hhash]
      rfl
    · exact yaml_to_map_str_hash m hmnd

/-- Witness for C8: a three-entry mapping with a string, an integer and a
boolean value. -/
theorem yaml_roundtrip_identity_witness :
    ∃ s y,
      map_to_yaml_string (yaml_to_map (.hash
        (([("name", Yaml.str "World"), ("count", Yaml.int 42),
          ("flag", Yaml.bool true)]).map (fun p => (.str p.1, p.2))))) =
        .ok s ∧
      parse_yaml s = .ok y ∧
      yaml_to_map y = yaml_to_map (.hash
        (([("name", Yaml.str "World"), ("count", Yaml.int 42),
          ("flag", Yaml.bool true)]).map (fun p => (.str p.1, p.2)))) :=
  yaml_roundtrip_identity
    [("name", Yaml.str "World"), ("count", Yaml.int 42),
      ("flag", Yaml.bool true)]
    (by
      intro p hp
      rcases List.mem_cons.mp hp with rfl | hp
      · decide
      rcases List.mem_cons.mp hp with rfl | hp
      · decide
      rcases List.mem_cons.mp hp with rfl | hp
      · decide
      cases hp)
    (by
      intro p hp
      rcases List.mem_cons.mp hp with rfl | hp
      · rfl
      rcases List.mem_cons.mp hp with rfl | hp
      · rfl
      rcases List.mem_cons.mp hp with rfl | hp
      · rfl
      cases hp)
    (by decide)

end Provisionr
